import Mathlib

/-!
# Verification of the balance-daily core

A shallow embedding of the recurring-workout date matcher
(`src/lib/recurrence.ts`), the dashboard streak loop and period aggregation
(`src/types/index.ts`, Dashboard component), and the daily-target
calculation (`calculateDailyTargets` in the storage module), together with
theorems settling the spec's claims about them.

Modelling conventions:
* A calendar date is embedded as its day number (an `Int`, days since
  1970-01-01).  The source stores dates as `YYYY-MM-DD` strings and compares
  them with string equality and lexicographic `<=` / `>`; on such strings
  that order coincides with chronological order, so `=`, `≤`, `<` on day
  numbers model the source's string comparisons, and `addDays d (-1)` is
  `d - 1`.
* 1970-01-01 is a Thursday, so JavaScript's `Date.prototype.getDay`
  (0 = Sunday … 6 = Saturday) is `(d + 4) % 7` with a nonnegative remainder,
  which is `Int.emod` here.
* JavaScript numbers are embedded as `Int` where the data is integral
  (calories, grams, minutes, day counts) and as `ℚ` in the target formulas;
  `Math.round` (halves toward +∞) is `jsRound q = ⌊q + 1/2⌋`.
* Optional fields (`recurrenceType?`, `recurrenceEnd?`, …) are `Option`s;
  JavaScript truthiness tests on them are matched explicitly (`0` is falsy,
  which for the integral `recurrenceInterval` is absorbed by the
  `interval < 1` check the source performs next).
-/

namespace BalanceDaily

/-- The recurrence tags of `Workout.recurrenceType` in `src/types`:
`'none' | 'daily' | 'weekly' | 'custom'`. -/
inductive RecurrenceType where
  | none
  | daily
  | weekly
  | custom
deriving DecidableEq

/-- `ExerciseType` in `src/types`. -/
inductive ExerciseType where
  | gym
  | running
  | cycling
  | yoga
  | swimming
  | hiking
  | other
deriving DecidableEq

/-- `Intensity` in `src/types`. -/
inductive Intensity where
  | low
  | medium
  | high
deriving DecidableEq

/-- The `Workout` record (fields used by the core; `notes` is display-only
and omitted).  `date` and `recurrenceEnd` are day numbers (see the header),
`recurring` absent in the source is `false` here (both are falsy). -/
structure Workout where
  id : String
  date : Int
  time : String
  exerciseType : ExerciseType
  duration : Int
  intensity : Intensity
  caloriesBurned : Int
  recurring : Bool
  recurrenceType : Option RecurrenceType
  recurrenceInterval : Option Int
  recurrenceDays : Option (List Int)
  recurrenceEnd : Option Int
deriving DecidableEq

/-- `MealType` in `src/types`. -/
inductive MealType where
  | breakfast
  | lunch
  | dinner
  | snack
deriving DecidableEq

/-- A `FoodItem` of a meal. -/
structure FoodItem where
  name : String
  calories : Int
  protein : Int
  carbs : Int
  fat : Int
deriving DecidableEq

/-- The `Meal` record (display-only fields omitted). -/
structure Meal where
  id : String
  date : Int
  time : String
  mealType : MealType
  foods : List FoodItem
  totalCalories : Int
  totalProtein : Int
  totalCarbs : Int
  totalFat : Int
deriving DecidableEq

/-- JavaScript `Date.prototype.getDay` on a day number:
0 = Sunday … 6 = Saturday; day 0 (1970-01-01) is a Thursday. -/
def getDay (d : Int) : Int :=
  (d + 4) % 7

/-- `isWorkoutOnDate` from `src/lib/recurrence.ts`: whether a workout
appears on a target date, from exact date match and recurrence rules.
The source's `format(targetDate, 'yyyy-MM-dd')` string comparisons are the
day-number comparisons here, and its midnight-normalised
`Math.round(diffMs / 86400000)` whole-day difference is exactly
`targetDate - workout.date` on day numbers. -/
def isWorkoutOnDate (workout : Workout) (targetDate : Int) : Bool :=
  -- 1. Exact date match
  if workout.date = targetDate then true
  else
    -- 2. Recurrence match — only if workout started on or before targetDate
    if workout.recurring
        && (match workout.recurrenceType with
            | some t => decide (t ≠ RecurrenceType.none)
            | Option.none => false)
        && decide (workout.date ≤ targetDate) then
      -- Check end date: `targetDateStr > workout.recurrenceEnd`
      if (match workout.recurrenceEnd with
          | some e => decide (e < targetDate)
          | Option.none => false) then false
      else
        match workout.recurrenceType with
        | some RecurrenceType.daily => true
        | some RecurrenceType.weekly =>
            -- `workout.recurrenceDays?.includes(targetDate.getDay()) ?? false`
            match workout.recurrenceDays with
            | some ds => ds.contains (getDay targetDate)
            | Option.none => false
        | some RecurrenceType.custom =>
            -- `!workout.recurrenceInterval || workout.recurrenceInterval < 1`
            match workout.recurrenceInterval with
            | Option.none => false
            | some interval =>
                if interval < 1 then false
                else
                  let diffDays := targetDate - workout.date
                  decide (0 ≤ diffDays) && decide (diffDays % interval = 0)
        | _ => false
    else false

/-- One per-day entry produced by `aggregateForPeriod` in the Dashboard
component (the display-only `label` string is omitted). -/
structure DayEntry where
  date : Int
  caloriesIn : Int
  caloriesOut : Int
  balance : Int
  protein : Int
  carbs : Int
  fat : Int
  workoutMinutes : Int
  workoutCount : Nat
  workouts : List Workout
deriving DecidableEq

/-- `aggregateForPeriod(dates, workouts, meals)` from the Dashboard
component: one `DayEntry` per date of the period, in the period's order.
The source's `reduce((s, m) => s + m.total..., 0)` accumulations are the
`foldl`s here. -/
def aggregateForPeriod (dates : List Int) (workouts : List Workout)
    (meals : List Meal) : List DayEntry :=
  dates.map fun day =>
    let dayWorkouts := workouts.filter fun w => isWorkoutOnDate w day
    let dayMeals := meals.filter fun m => m.date == day
    let caloriesIn := dayMeals.foldl (fun s m => s + m.totalCalories) 0
    let caloriesOut := dayWorkouts.foldl (fun s w => s + w.caloriesBurned) 0
    let protein := dayMeals.foldl (fun s m => s + m.totalProtein) 0
    let carbs := dayMeals.foldl (fun s m => s + m.totalCarbs) 0
    let fat := dayMeals.foldl (fun s m => s + m.totalFat) 0
    let workoutMinutes := dayWorkouts.foldl (fun s w => s + w.duration) 0
    ⟨day, caloriesIn, caloriesOut, caloriesIn - caloriesOut,
      protein, carbs, fat, workoutMinutes, dayWorkouts.length, dayWorkouts⟩

/-- The accumulator of the `totalStats` reduce in the Dashboard component. -/
structure StatsTotals where
  caloriesIn : Int
  caloriesOut : Int
  protein : Int
  carbs : Int
  fat : Int
  workoutMinutes : Int
  workoutCount : Nat
deriving DecidableEq

/-- One step of the `totalStats` reduce. -/
def statsStep (acc : StatsTotals) (d : DayEntry) : StatsTotals :=
  ⟨acc.caloriesIn + d.caloriesIn, acc.caloriesOut + d.caloriesOut,
    acc.protein + d.protein, acc.carbs + d.carbs, acc.fat + d.fat,
    acc.workoutMinutes + d.workoutMinutes, acc.workoutCount + d.workoutCount⟩

/-- The `totals` reduce of `totalStats` in the Dashboard component
(the exercise-type breakdown it also builds is display-only and omitted). -/
def totalStats (periodData : List DayEntry) : StatsTotals :=
  periodData.foldl statsStep ⟨0, 0, 0, 0, 0, 0, 0⟩

/-- JavaScript `Math.round`: nearest integer, halves rounded toward +∞. -/
def jsRound (q : ℚ) : Int :=
  ⌊q + 1 / 2⌋

/-- `avgCalories` in the Dashboard component:
`periodDates.length ? Math.round(totalStats.caloriesIn / periodDates.length) : 0`. -/
def avgCalories (dates : List Int) (workouts : List Workout)
    (meals : List Meal) : Int :=
  if dates.length ≠ 0 then
    jsRound (((totalStats (aggregateForPeriod dates workouts meals)).caloriesIn : ℚ)
      / (dates.length : ℚ))
  else 0

/-- The per-day activity test of the Dashboard streak loop:
`workouts.some(w => isWorkoutOnDate(w, checkDate)) || meals.some(m => m.date === ds)`. -/
def hasActivity (workouts : List Workout) (meals : List Meal) (day : Int) : Bool :=
  workouts.any (fun w => isWorkoutOnDate w day) || meals.any (fun m => m.date == day)

/-- The Dashboard streak `while` loop, with explicit fuel: count the day and
step back one day while the day has activity, stop at the first day without.
The source loop is unbounded; `currentStreak` supplies fuel that provably
outlasts the first inactive day, so the value is the loop's. -/
def streakLoop (active : Int → Bool) (day : Int) : Nat → Nat
  | 0 => 0
  | fuel + 1 => if active day then streakLoop active (day - 1) fuel + 1 else 0

/-- The smallest of `today` and every record's anchor date: below it no
workout and no meal can be active, which bounds the streak loop. -/
def earliestRelevant (workouts : List Workout) (meals : List Meal)
    (today : Int) : Int :=
  (workouts.map Workout.date ++ meals.map Meal.date).foldr min today

/-- The streak computation of the Dashboard component (`streak` /
`checkDate` loop), as a function of the collections and the starting day. -/
def currentStreak (workouts : List Workout) (meals : List Meal)
    (today : Int) : Nat :=
  streakLoop (hasActivity workouts meals) today
    (today - earliestRelevant workouts meals today + 2).toNat

/-- `sex` of `UserProfile`. -/
inductive Sex where
  | male
  | female
deriving DecidableEq

/-- `activityLevel` of `UserProfile`. -/
inductive ActivityLevel where
  | sedentary
  | light
  | moderate
  | active
  | very_active
deriving DecidableEq

/-- `goal` of `UserProfile`. -/
inductive Goal where
  | lose_fat
  | gain_muscle
  | maintain
deriving DecidableEq

/-- The `UserProfile` record of `src/types`. -/
structure UserProfile where
  age : ℚ
  weight : ℚ
  height : ℚ
  sex : Sex
  activityLevel : ActivityLevel
  goal : Goal
  onboardingComplete : Bool
deriving DecidableEq

/-- The `DailyTargets` record of `src/types`. -/
structure DailyTargets where
  calories : Int
  protein : Int
  carbs : Int
  fat : Int
deriving DecidableEq

/-- The `activityMultipliers` table of `calculateDailyTargets`. The
source's `|| 1.55` fallback is unreachable: `activityLevel` is a closed
enumeration whose every tag the table lists. -/
def activityMultiplier : ActivityLevel → ℚ
  | ActivityLevel.sedentary => 1.2
  | ActivityLevel.light => 1.375
  | ActivityLevel.moderate => 1.55
  | ActivityLevel.active => 1.725
  | ActivityLevel.very_active => 1.9

/-- `calculateDailyTargets` from the storage module (identical in both
copies of the source): Mifflin-St Jeor BMR, activity multiplier, goal
adjustment, rounding, then the goal's macro percentage split at
4 kcal/g (protein, carbs) and 9 kcal/g (fat). -/
def calculateDailyTargets (profile : UserProfile) : DailyTargets :=
  let bmr : ℚ :=
    match profile.sex with
    | Sex.male => 10 * profile.weight + 6.25 * profile.height - 5 * profile.age + 5
    | Sex.female => 10 * profile.weight + 6.25 * profile.height - 5 * profile.age - 161
  let tdee : ℚ :=
    match profile.goal with
    | Goal.lose_fat => bmr * activityMultiplier profile.activityLevel - 400
    | Goal.gain_muscle => bmr * activityMultiplier profile.activityLevel + 300
    | Goal.maintain => bmr * activityMultiplier profile.activityLevel
  let calories := jsRound tdee
  let proteinPct : ℚ :=
    match profile.goal with
    | Goal.lose_fat => 0.35
    | Goal.gain_muscle => 0.30
    | Goal.maintain => 0.25
  let carbsPct : ℚ :=
    match profile.goal with
    | Goal.lose_fat => 0.35
    | Goal.gain_muscle => 0.45
    | Goal.maintain => 0.45
  let fatPct : ℚ :=
    match profile.goal with
    | Goal.lose_fat => 0.30
    | Goal.gain_muscle => 0.25
    | Goal.maintain => 0.30
  ⟨calories,
    jsRound ((calories : ℚ) * proteinPct / 4),
    jsRound ((calories : ℚ) * carbsPct / 4),
    jsRound ((calories : ℚ) * fatPct / 9)⟩

/-! ## Helper lemmas -/

/-- A workout is never active before its own anchor date: both the exact
match and every recurrence branch require `workout.date ≤ targetDate`. -/
theorem isWorkoutOnDate_date_le (w : Workout) (d : Int)
    (h : isWorkoutOnDate w d = true) : w.date ≤ d := by
  by_cases heq : w.date = d
  · exact le_of_eq heq
  by_cases hle : w.date ≤ d
  · exact hle
  · exfalso
    unfold isWorkoutOnDate at h
    simp [heq, hle] at h

/-! ## Claims -/

/-- C10: the exact-date check runs before any recurrence logic, so
`isWorkoutOnDate w w.date` is `true` for every workout — even one whose
`recurrenceEnd` lies strictly before its own anchor date (the second
conjunct evaluates such a degenerate daily workout on its anchor date). -/
theorem exact_date_match_always_wins :
    (∀ w : Workout, isWorkoutOnDate w w.date = true) ∧
    isWorkoutOnDate
      ⟨"w", 10, "07:00", ExerciseType.running, 20, Intensity.low, 150,
        true, some RecurrenceType.daily, Option.none, Option.none, some 5⟩
      10 = true := by
  refine ⟨fun w => ?_, by decide⟩
  unfold isWorkoutOnDate
  simp

/-- C4: a workout with `recurring = false`, or with `recurrenceType` absent
or `'none'`, is active exactly on its own date. -/
theorem non_recurring_matches_only_own_date (w : Workout) (d : Int)
    (h : w.recurring = false ∨ w.recurrenceType = Option.none ∨
      w.recurrenceType = some RecurrenceType.none) :
    isWorkoutOnDate w d = true ↔ d = w.date := by
  constructor
  · intro ht
    by_contra hne
    have heq : ¬ (w.date = d) := fun e => hne e.symm
    unfold isWorkoutOnDate at ht
    rcases h with h | h | h <;> simp [heq, h] at ht
  · intro hd
    subst hd
    unfold isWorkoutOnDate
    simp

theorem non_recurring_matches_only_own_date_witness :
    ((⟨"n", 7, "09:00", ExerciseType.yoga, 45, Intensity.low, 120,
        false, Option.none, Option.none, Option.none, Option.none⟩ : Workout).recurring
      = false) ∧
    (isWorkoutOnDate
      ⟨"n", 7, "09:00", ExerciseType.yoga, 45, Intensity.low, 120,
        false, Option.none, Option.none, Option.none, Option.none⟩ 8 = true ↔
      (8 : Int) = 7) :=
  ⟨rfl,
    non_recurring_matches_only_own_date
      ⟨"n", 7, "09:00", ExerciseType.yoga, 45, Intensity.low, 120,
        false, Option.none, Option.none, Option.none, Option.none⟩ 8
      (Or.inl rfl)⟩

/-- C2 counterexample: a daily recurring workout anchored on day 10 with
`recurrenceEnd` day 5 — day 10 lies strictly after the recurrence end, yet
`isWorkoutOnDate` returns `true` there (the exact-date match runs first),
so "false for every targetDate strictly after recurrenceEnd" fails. -/
theorem daily_after_end_counterexample :
    ((⟨"d", 10, "07:00", ExerciseType.gym, 30, Intensity.high, 200,
        true, some RecurrenceType.daily, Option.none, Option.none, some 5⟩ : Workout).recurring
      = true) ∧
    ((⟨"d", 10, "07:00", ExerciseType.gym, 30, Intensity.high, 200,
        true, some RecurrenceType.daily, Option.none, Option.none, some 5⟩ : Workout).recurrenceType
      = some RecurrenceType.daily) ∧
    ((⟨"d", 10, "07:00", ExerciseType.gym, 30, Intensity.high, 200,
        true, some RecurrenceType.daily, Option.none, Option.none, some 5⟩ : Workout).recurrenceEnd
      = some 5) ∧
    (5 : Int) < 10 ∧
    isWorkoutOnDate
      ⟨"d", 10, "07:00", ExerciseType.gym, 30, Intensity.high, 200,
        true, some RecurrenceType.daily, Option.none, Option.none, some 5⟩
      10 = true := by
  refine ⟨rfl, rfl, rfl, by decide, by decide⟩

/-- C2 (amended): for a daily recurring workout, with `recurrenceEnd` set
the matcher is true from the anchor date through the end date inclusive and
false strictly after the end date except on the anchor date itself (where
the exact-date match wins); with no `recurrenceEnd` it is true exactly on
the dates on or after the anchor date. -/
theorem daily_recurrence_activity_range (w : Workout)
    (h1 : w.recurring = true)
    (h2 : w.recurrenceType = some RecurrenceType.daily) :
    (∀ e : Int, w.recurrenceEnd = some e →
      (∀ t : Int, w.date ≤ t → t ≤ e → isWorkoutOnDate w t = true) ∧
      (∀ t : Int, e < t → t ≠ w.date → isWorkoutOnDate w t = false)) ∧
    (w.recurrenceEnd = Option.none →
      ∀ t : Int, isWorkoutOnDate w t = decide (w.date ≤ t)) := by
  constructor
  · intro e he
    constructor
    · intro t hwt hte
      by_cases heq : w.date = t
      · unfold isWorkoutOnDate
        simp [heq]
      · unfold isWorkoutOnDate
        simp [heq, h1, h2, he, hwt, not_lt.mpr hte]
    · intro t het hne
      have heq : ¬ (w.date = t) := fun h => hne h.symm
      unfold isWorkoutOnDate
      simp [heq, h1, h2, he, het]
  · intro hnone t
    by_cases heq : w.date = t
    · unfold isWorkoutOnDate
      simp [heq, le_of_eq heq]
    · by_cases hle : w.date ≤ t
      · unfold isWorkoutOnDate
        simp [heq, h1, h2, hnone, hle]
      · unfold isWorkoutOnDate
        simp [heq, hle]

theorem daily_recurrence_activity_range_witness :
    ((⟨"d2", 10, "07:00", ExerciseType.gym, 30, Intensity.high, 200,
        true, some RecurrenceType.daily, Option.none, Option.none, some 20⟩ : Workout).recurring
      = true) ∧
    isWorkoutOnDate
      ⟨"d2", 10, "07:00", ExerciseType.gym, 30, Intensity.high, 200,
        true, some RecurrenceType.daily, Option.none, Option.none, some 20⟩
      15 = true ∧
    isWorkoutOnDate
      ⟨"d2", 10, "07:00", ExerciseType.gym, 30, Intensity.high, 200,
        true, some RecurrenceType.daily, Option.none, Option.none, some 20⟩
      21 = false :=
  ⟨rfl,
    ((daily_recurrence_activity_range
      ⟨"d2", 10, "07:00", ExerciseType.gym, 30, Intensity.high, 200,
        true, some RecurrenceType.daily, Option.none, Option.none, some 20⟩
      rfl rfl).1 20 rfl).1 15 (by decide) (by decide),
    ((daily_recurrence_activity_range
      ⟨"d2", 10, "07:00", ExerciseType.gym, 30, Intensity.high, 200,
        true, some RecurrenceType.daily, Option.none, Option.none, some 20⟩
      rfl rfl).1 20 rfl).2 21 (by decide) (by decide)⟩

/-- C1: for a custom recurring workout, on or after its anchor date but not
on it, and not past its recurrence end, the matcher is true exactly when
the interval is present, at least 1, and the exact whole-day difference
`t - w.date` is nonnegative and divisible by it (the day-number embedding
makes the difference an exact integer, as the spec requires). -/
theorem custom_recurrence_day_interval (w : Workout) (t : Int)
    (h1 : w.recurring = true)
    (h2 : w.recurrenceType = some RecurrenceType.custom)
    (h3 : w.date ≤ t) (h4 : t ≠ w.date)
    (h5 : ∀ e : Int, w.recurrenceEnd = some e → t ≤ e) :
    isWorkoutOnDate w t = true ↔
      ∃ i : Int, w.recurrenceInterval = some i ∧ 1 ≤ i ∧
        0 ≤ t - w.date ∧ (t - w.date) % i = 0 := by
  have heq : ¬ (w.date = t) := fun h => h4 h.symm
  have hend : (match w.recurrenceEnd with
      | some e => decide (e < t)
      | Option.none => false) = false := by
    cases hre : w.recurrenceEnd with
    | none => rfl
    | some e => simpa using not_lt.mpr (h5 e hre)
  cases hri : w.recurrenceInterval with
  | none =>
    unfold isWorkoutOnDate
    simp [heq, h1, h2, h3, hend, hri]
  | some i =>
    by_cases hlt : i < 1
    · unfold isWorkoutOnDate
      simp only [heq, h1, h2, h3, hend, hri]
      simp [hlt]
      try omega
    · unfold isWorkoutOnDate
      simp only [heq, h1, h2, h3, hend, hri]
      simp [hlt, sub_nonneg.mpr h3]
      try omega

theorem custom_recurrence_day_interval_witness :
    ((⟨"c", 0, "08:00", ExerciseType.cycling, 60, Intensity.medium, 400,
        true, some RecurrenceType.custom, some 3, Option.none, some 30⟩ : Workout).recurrenceInterval
      = some 3) ∧
    isWorkoutOnDate
      ⟨"c", 0, "08:00", ExerciseType.cycling, 60, Intensity.medium, 400,
        true, some RecurrenceType.custom, some 3, Option.none, some 30⟩
      6 = true :=
  ⟨rfl,
    (custom_recurrence_day_interval
      ⟨"c", 0, "08:00", ExerciseType.cycling, 60, Intensity.medium, 400,
        true, some RecurrenceType.custom, some 3, Option.none, some 30⟩
      6 rfl rfl (by decide) (by decide)
      (fun e he => by
        injection he with he'
        subst he'
        decide)).mpr
      ⟨3, rfl, by decide, by decide, by decide⟩⟩

/-- C5: for a weekly recurring workout, on or after its anchor date but not
on it, and not past its recurrence end, the matcher is true exactly when the
target date's weekday number (0 = Sunday … 6 = Saturday) belongs to
`recurrenceDays`; an absent or empty weekday set yields `false`, the
function being total. -/
theorem weekly_recurrence_weekday_membership (w : Workout) (t : Int)
    (h1 : w.recurring = true)
    (h2 : w.recurrenceType = some RecurrenceType.weekly)
    (h3 : w.date ≤ t) (h4 : t ≠ w.date)
    (h5 : ∀ e : Int, w.recurrenceEnd = some e → t ≤ e) :
    isWorkoutOnDate w t = true ↔
      ∃ ds : List Int, w.recurrenceDays = some ds ∧ getDay t ∈ ds := by
  have heq : ¬ (w.date = t) := fun h => h4 h.symm
  have hend : (match w.recurrenceEnd with
      | some e => decide (e < t)
      | Option.none => false) = false := by
    cases hre : w.recurrenceEnd with
    | none => rfl
    | some e => simpa using not_lt.mpr (h5 e hre)
  cases hrd : w.recurrenceDays with
  | none =>
    unfold isWorkoutOnDate
    simp [heq, h1, h2, h3, hend, hrd]
  | some ds =>
    unfold isWorkoutOnDate
    simp only [heq, h1, h2, h3, hend, hrd]
    simp

theorem weekly_recurrence_weekday_membership_witness :
    getDay 5 = 2 ∧
    isWorkoutOnDate
      ⟨"k", 0, "18:00", ExerciseType.swimming, 40, Intensity.medium, 300,
        true, some RecurrenceType.weekly, Option.none, some [1, 2, 5], Option.none⟩
      5 = true :=
  ⟨by decide,
    (weekly_recurrence_weekday_membership
      ⟨"k", 0, "18:00", ExerciseType.swimming, 40, Intensity.medium, 300,
        true, some RecurrenceType.weekly, Option.none, some [1, 2, 5], Option.none⟩
      5 rfl rfl (by decide) (by decide)
      (fun e he => by cases he)).mpr
      ⟨[1, 2, 5], rfl, by decide⟩⟩

/-! ## Streak lemmas -/

theorem foldr_min_le_init (l : List Int) (a : Int) : l.foldr min a ≤ a := by
  induction l with
  | nil => exact le_refl a
  | cons x l ih =>
    exact le_trans (min_le_right x (l.foldr min a)) ih

theorem foldr_min_le_mem (l : List Int) (a : Int) (x : Int) (hx : x ∈ l) :
    l.foldr min a ≤ x := by
  induction l with
  | nil => cases hx
  | cons y l ih =>
    rcases List.mem_cons.mp hx with h | h
    · subst h
      exact min_le_left x (l.foldr min a)
    · exact le_trans (min_le_right y (l.foldr min a)) (ih h)

/-- On a day strictly before every workout anchor and every meal date,
no workout matches and no meal matches. -/
theorem hasActivity_false_below (ws : List Workout) (ms : List Meal) (d : Int)
    (h : ∀ x ∈ ws.map Workout.date ++ ms.map Meal.date, d < x) :
    hasActivity ws ms d = false := by
  unfold hasActivity
  rw [Bool.or_eq_false_iff]
  constructor
  · rw [List.any_eq_false]
    intro w hw
    intro hact
    have hle := isWorkoutOnDate_date_le w d hact
    have hlt := h w.date (List.mem_append_left _ (List.mem_map_of_mem Workout.date hw))
    omega
  · rw [List.any_eq_false]
    intro m hm
    have hlt := h m.date (List.mem_append_right _ (List.mem_map_of_mem Meal.date hm))
    simp
    omega

/-- The fuelled streak loop, given enough fuel to reach an inactive day,
counts exactly the consecutive active days and stops on an inactive one. -/
theorem streakLoop_spec (active : Int → Bool) :
    ∀ (fuel : Nat) (day : Int),
      (∃ k : Nat, k < fuel ∧ active (day - (k : Int)) = false) →
      (∀ k : Nat, k < streakLoop active day fuel →
        active (day - (k : Int)) = true) ∧
      active (day - (streakLoop active day fuel : Int)) = false := by
  intro fuel
  induction fuel with
  | zero =>
    intro day h
    rcases h with ⟨k, hk, _⟩
    exact absurd hk (Nat.not_lt_zero k)
  | succ n ih =>
    intro day h
    by_cases hd : active day = true
    · rcases h with ⟨k, hk, hke⟩
      have hk0 : k ≠ 0 := by
        intro h0
        subst h0
        simp at hke
        rw [hke] at hd
        exact Bool.false_ne_true hd
      obtain ⟨k', rfl⟩ := Nat.exists_eq_succ_of_ne_zero hk0
      have hke' : active (day - 1 - (k' : Int)) = false := by
        have harg : day - 1 - (k' : Int) = day - ((k' + 1 : Nat) : Int) := by
          push_cast
          ring
        rw [harg]
        exact hke
      obtain ⟨ih1, ih2⟩ := ih (day - 1) ⟨k', Nat.lt_of_succ_lt_succ hk, hke'⟩
      have hstep : streakLoop active day (n + 1) =
          streakLoop active (day - 1) n + 1 := by
        have h0 : streakLoop active day (n + 1) =
            if active day then streakLoop active (day - 1) n + 1 else 0 := rfl
        rw [h0, if_pos hd]
      rw [hstep]
      constructor
      · intro k hks
        match k with
        | 0 => simpa using hd
        | j + 1 =>
          have hj : j < streakLoop active (day - 1) n := Nat.lt_of_succ_lt_succ hks
          have harg : day - ((j + 1 : Nat) : Int) = day - 1 - (j : Int) := by
            push_cast
            ring
          rw [harg]
          exact ih1 j hj
      · have harg : day - ((streakLoop active (day - 1) n + 1 : Nat) : Int) =
            day - 1 - (streakLoop active (day - 1) n : Int) := by
          push_cast
          ring
        rw [harg]
        exact ih2
    · have hd' : active day = false := Bool.eq_false_iff.mpr hd
      have hstep : streakLoop active day (n + 1) = 0 := by
        have h0 : streakLoop active day (n + 1) =
            if active day then streakLoop active (day - 1) n + 1 else 0 := rfl
        rw [h0, if_neg hd]
      rw [hstep]
      refine ⟨fun k hk => absurd hk (Nat.not_lt_zero k), ?_⟩
      simpa using hd'

/-- The streak loop's fuel in `currentStreak` outlasts the first inactive
day, so the fuelled loop computes the unbounded source loop's value: the
count of consecutive active days ending at `today`, stopped at (and
excluding) the first inactive day. -/
theorem currentStreak_spec (ws : List Workout) (ms : List Meal) (today : Int) :
    (∀ k : Nat, k < currentStreak ws ms today →
      hasActivity ws ms (today - (k : Int)) = true) ∧
    hasActivity ws ms (today - (currentStreak ws ms today : Int)) = false := by
  have hB : earliestRelevant ws ms today ≤ today := foldr_min_le_init _ _
  unfold currentStreak
  apply streakLoop_spec
  refine ⟨(today - earliestRelevant ws ms today + 1).toNat, by omega, ?_⟩
  have hcast : (((today - earliestRelevant ws ms today + 1).toNat : Int)) =
      today - earliestRelevant ws ms today + 1 := Int.toNat_of_nonneg (by omega)
  rw [hcast]
  have harg : today - (today - earliestRelevant ws ms today + 1) =
      earliestRelevant ws ms today - 1 := by ring
  rw [harg]
  apply hasActivity_false_below
  intro x hx
  have := foldr_min_le_mem (ws.map Workout.date ++ ms.map Meal.date) today x hx
  unfold earliestRelevant
  omega

/-- C3: `currentStreak` counts the consecutive days with activity (a
matching workout via the recurrence evaluator, or a meal dated that day)
walking backward from `today` inclusive; the first inactive day is excluded,
and a `today` with no activity gives 0. -/
theorem streak_counts_consecutive_active_days (ws : List Workout)
    (ms : List Meal) (today : Int) :
    (∀ k : Nat, k < currentStreak ws ms today →
      hasActivity ws ms (today - (k : Int)) = true) ∧
    hasActivity ws ms (today - (currentStreak ws ms today : Int)) = false ∧
    (hasActivity ws ms today = false → currentStreak ws ms today = 0) := by
  obtain ⟨h1, h2⟩ := currentStreak_spec ws ms today
  refine ⟨h1, h2, fun h0 => ?_⟩
  by_contra hne
  have hpos : 0 < currentStreak ws ms today := Nat.pos_of_ne_zero hne
  have htoday := h1 0 hpos
  simp at htoday
  rw [htoday] at h0
  cases h0

/-- C8: the backward streak scan always terminates — a day at or below the
earliest date of any record has no matching workout and no matching meal,
and the scan's value stops at (and excludes) the first such inactive day. -/
theorem streak_scan_terminates (ws : List Workout) (ms : List Meal)
    (today : Int) :
    (∃ d : Int, d ≤ today ∧
      (∀ w ∈ ws, d ≤ w.date) ∧ (∀ m ∈ ms, d ≤ m.date) ∧
      (∀ w ∈ ws, isWorkoutOnDate w d = false) ∧
      (∀ m ∈ ms, m.date ≠ d) ∧
      hasActivity ws ms d = false) ∧
    hasActivity ws ms (today - (currentStreak ws ms today : Int)) = false ∧
    (∀ k : Nat, k < currentStreak ws ms today →
      hasActivity ws ms (today - (k : Int)) = true) := by
  obtain ⟨h1, h2⟩ := currentStreak_spec ws ms today
  refine ⟨?_, h2, h1⟩
  refine ⟨earliestRelevant ws ms today - 1, ?_, ?_, ?_, ?_, ?_, ?_⟩
  · have := foldr_min_le_init (ws.map Workout.date ++ ms.map Meal.date) today
    unfold earliestRelevant
    omega
  · intro w hw
    have := foldr_min_le_mem (ws.map Workout.date ++ ms.map Meal.date) today w.date
      (List.mem_append_left _ (List.mem_map_of_mem Workout.date hw))
    unfold earliestRelevant
    omega
  · intro m hm
    have := foldr_min_le_mem (ws.map Workout.date ++ ms.map Meal.date) today m.date
      (List.mem_append_right _ (List.mem_map_of_mem Meal.date hm))
    unfold earliestRelevant
    omega
  · intro w hw
    rw [Bool.eq_false_iff]
    intro hact
    have hle := isWorkoutOnDate_date_le w _ hact
    have := foldr_min_le_mem (ws.map Workout.date ++ ms.map Meal.date) today w.date
      (List.mem_append_left _ (List.mem_map_of_mem Workout.date hw))
    unfold earliestRelevant at hle
    omega
  · intro m hm
    have := foldr_min_le_mem (ws.map Workout.date ++ ms.map Meal.date) today m.date
      (List.mem_append_right _ (List.mem_map_of_mem Meal.date hm))
    unfold earliestRelevant
    omega
  · apply hasActivity_false_below
    intro x hx
    have := foldr_min_le_mem (ws.map Workout.date ++ ms.map Meal.date) today x hx
    unfold earliestRelevant
    omega

/-! ## Aggregation lemmas -/

theorem foldl_statsStep (l : List DayEntry) (acc : StatsTotals) :
    l.foldl statsStep acc =
      ⟨acc.caloriesIn + (l.map DayEntry.caloriesIn).sum,
        acc.caloriesOut + (l.map DayEntry.caloriesOut).sum,
        acc.protein + (l.map DayEntry.protein).sum,
        acc.carbs + (l.map DayEntry.carbs).sum,
        acc.fat + (l.map DayEntry.fat).sum,
        acc.workoutMinutes + (l.map DayEntry.workoutMinutes).sum,
        acc.workoutCount + (l.map DayEntry.workoutCount).sum⟩ := by
  induction l generalizing acc with
  | nil => simp
  | cons d l ih => simp [statsStep, ih, add_assoc]

theorem totalStats_eq_sums (l : List DayEntry) :
    totalStats l =
      ⟨(l.map DayEntry.caloriesIn).sum, (l.map DayEntry.caloriesOut).sum,
        (l.map DayEntry.protein).sum, (l.map DayEntry.carbs).sum,
        (l.map DayEntry.fat).sum, (l.map DayEntry.workoutMinutes).sum,
        (l.map DayEntry.workoutCount).sum⟩ := by
  unfold totalStats
  rw [foldl_statsStep]
  simp

theorem sum_map_sub {α : Type} (l : List α) (f g : α → Int) :
    (l.map fun x => f x - g x).sum = (l.map f).sum - (l.map g).sum := by
  induction l with
  | nil => simp
  | cons x l ih =>
    simp [ih]
    ring

/-- The `balance` field of every entry `aggregateForPeriod` builds is its
`caloriesIn` minus its `caloriesOut`. -/
theorem aggregate_balance_map (dates : List Int) (ws : List Workout)
    (ms : List Meal) :
    (aggregateForPeriod dates ws ms).map DayEntry.balance =
      (aggregateForPeriod dates ws ms).map
        (fun e => e.caloriesIn - e.caloriesOut) := by
  induction dates with
  | nil => rfl
  | cons d dates ih =>
    simp only [aggregateForPeriod, List.map_cons] at ih ⊢
    rw [ih]

/-- C6: every period-level total of `totalStats` is the element-wise sum of
the corresponding per-day field over the period's entries, the per-day
balance is calories consumed minus calories burned for that day, and the
period balance — period calories in minus period calories out — is the sum
of the per-day balances, with its sign preserved (it is exactly that
difference, unclamped). -/
theorem period_totals_are_componentwise_sums (dates : List Int)
    (ws : List Workout) (ms : List Meal) :
    (totalStats (aggregateForPeriod dates ws ms)).caloriesIn =
        ((aggregateForPeriod dates ws ms).map DayEntry.caloriesIn).sum ∧
    (totalStats (aggregateForPeriod dates ws ms)).caloriesOut =
        ((aggregateForPeriod dates ws ms).map DayEntry.caloriesOut).sum ∧
    (totalStats (aggregateForPeriod dates ws ms)).protein =
        ((aggregateForPeriod dates ws ms).map DayEntry.protein).sum ∧
    (totalStats (aggregateForPeriod dates ws ms)).carbs =
        ((aggregateForPeriod dates ws ms).map DayEntry.carbs).sum ∧
    (totalStats (aggregateForPeriod dates ws ms)).fat =
        ((aggregateForPeriod dates ws ms).map DayEntry.fat).sum ∧
    (totalStats (aggregateForPeriod dates ws ms)).workoutMinutes =
        ((aggregateForPeriod dates ws ms).map DayEntry.workoutMinutes).sum ∧
    (totalStats (aggregateForPeriod dates ws ms)).workoutCount =
        ((aggregateForPeriod dates ws ms).map DayEntry.workoutCount).sum ∧
    (aggregateForPeriod dates ws ms).map DayEntry.balance =
        (aggregateForPeriod dates ws ms).map
          (fun e => e.caloriesIn - e.caloriesOut) ∧
    (totalStats (aggregateForPeriod dates ws ms)).caloriesIn -
        (totalStats (aggregateForPeriod dates ws ms)).caloriesOut =
        ((aggregateForPeriod dates ws ms).map DayEntry.balance).sum := by
  rw [totalStats_eq_sums, aggregate_balance_map, sum_map_sub]
  exact ⟨rfl, rfl, rfl, rfl, rfl, rfl, rfl, rfl, rfl⟩

/-- C7: the average calories consumed per day is the period total calories
consumed divided by the day count, rounded half-up (`⌊q + 1/2⌋`), and a
zero-day period yields 0 with no division performed. -/
theorem avg_calories_guarded_mean (dates : List Int) (ws : List Workout)
    (ms : List Meal) :
    avgCalories dates ws ms =
      (if dates.length = 0 then 0
        else
          ⌊(((aggregateForPeriod dates ws ms).map DayEntry.caloriesIn).sum : ℚ)
            / (dates.length : ℚ) + 1 / 2⌋) ∧
    (dates.length = 0 → avgCalories dates ws ms = 0) := by
  constructor
  · unfold avgCalories
    by_cases h : dates.length = 0
    · rw [if_neg (fun hne => hne h), if_pos h]
    · rw [if_pos h, if_neg h]
      rw [totalStats_eq_sums]
      rfl
  · intro h
    unfold avgCalories
    rw [if_neg (fun hne => hne h)]

/-- C9: `calculateDailyTargets` follows Mifflin-St Jeor (male
`10w + 6.25h - 5a + 5`, female `10w + 6.25h - 5a - 161`), multiplies by the
activity multiplier, applies the goal adjustment (−400 / +300 / +0), rounds,
and splits macros by the goal's percentages at 4 kcal/g for protein and
carbs and 9 kcal/g for fat; in particular the male 30y/80kg/180cm moderate
maintain profile gets 2759 kcal, 172 g protein, 310 g carbs, 92 g fat. -/
theorem daily_targets_mifflin_st_jeor :
    (∀ p : UserProfile,
      calculateDailyTargets p =
        (let bmr : ℚ :=
          if p.sex = Sex.male then
            10 * p.weight + 6.25 * p.height - 5 * p.age + 5
          else
            10 * p.weight + 6.25 * p.height - 5 * p.age - 161
        let mult : ℚ :=
          if p.activityLevel = ActivityLevel.sedentary then 1.2
          else if p.activityLevel = ActivityLevel.light then 1.375
          else if p.activityLevel = ActivityLevel.moderate then 1.55
          else if p.activityLevel = ActivityLevel.active then 1.725
          else 1.9
        let tdee : ℚ :=
          if p.goal = Goal.lose_fat then bmr * mult - 400
          else if p.goal = Goal.gain_muscle then bmr * mult + 300
          else bmr * mult
        let calories : Int := ⌊tdee + 1 / 2⌋
        let proteinPct : ℚ :=
          if p.goal = Goal.lose_fat then 0.35
          else if p.goal = Goal.gain_muscle then 0.30
          else 0.25
        let carbsPct : ℚ := if p.goal = Goal.lose_fat then 0.35 else 0.45
        let fatPct : ℚ := if p.goal = Goal.gain_muscle then 0.25 else 0.30
        ⟨calories, ⌊(calories : ℚ) * proteinPct / 4 + 1 / 2⌋,
          ⌊(calories : ℚ) * carbsPct / 4 + 1 / 2⌋,
          ⌊(calories : ℚ) * fatPct / 9 + 1 / 2⌋⟩)) ∧
    calculateDailyTargets
        ⟨30, 80, 180, Sex.male, ActivityLevel.moderate, Goal.maintain, true⟩ =
      ⟨2759, 172, 310, 92⟩ := by
  constructor
  · rintro ⟨a, w, h, sex, al, g, ob⟩
    cases sex <;> cases al <;> cases g <;> rfl
  · simp only [calculateDailyTargets, activityMultiplier]
    norm_num [jsRound]

end BalanceDaily
